import Mathlib

/-!
Verification of the tool-call broker core of the DeepCanvasAI repository.

Shallow embedding of:
* `js/tools/tool-manager.js`  (class `ToolManager`: local registry + Composio routing)
* `js/integrations/tool-manager.js` (class `ToolManager`: Composio tool cache)
* `js/mcp/mcp-client.js` (class `MCPClient`: batched personalization tool calls)
* `SecondMeMemory.retrieveMemories` (Second-Me memory bridge)

JavaScript values are modelled by the inductive `JSVal`; objects are ordered
association lists of string keys, mirroring JS object-literal construction
order.  External collaborators (the Composio API client, the Composio
integration backend, `JSON.parse`, the Second-Me adapter) are parameters of
the embedding: every theorem quantifies over their behaviour.  Thrown JS
exceptions are `Except.error` carrying the message string extracted at the
catch site.
-/

/-- Model of a JavaScript value.  Numbers are modelled as integers (no claim
here exercises non-integer arithmetic); objects are ordered key/value lists. -/
inductive JSVal where
  | vNull : JSVal
  | vUndefined : JSVal
  | vBool : Bool → JSVal
  | vNum : Int → JSVal
  | vStr : String → JSVal
  | vArr : List JSVal → JSVal
  | vObj : List (String × JSVal) → JSVal

/-- Constructor discriminator, used to separate values built from different
constructors. -/
def JSVal.ctorIdx : JSVal → Nat
  | .vNull => 0
  | .vUndefined => 1
  | .vBool _ => 2
  | .vNum _ => 3
  | .vStr _ => 4
  | .vArr _ => 5
  | .vObj _ => 6

/-- JS property access `v[f]`: the value stored under key `f` when `v` is an
object that has the key, `undefined` otherwise. -/
def getField (v : JSVal) (f : String) : JSVal :=
  match v with
  | .vObj fields =>
    match fields.find? (fun p => p.1 = f) with
    | some p => p.2
    | none => .vUndefined
  | _ => .vUndefined

/-- JS truthiness: `null`, `undefined`, `false`, `0` and `""` are falsy,
everything else (including every object and array) is truthy. -/
def truthy : JSVal → Bool
  | .vNull => false
  | .vUndefined => false
  | .vBool b => b
  | .vNum n => n != 0
  | .vStr s => s != ""
  | .vArr _ => true
  | .vObj _ => true

/-- JS logical or `a || b` (truthiness-based, NOT nullish coalescing). -/
def jsOr (a b : JSVal) : JSVal := if truthy a then a else b

/-- JS nullish coalescing `a ?? b`: `b` exactly when `a` is `null` or
`undefined`.  (Used only to state the spec's claimed wrapping rule; the
source code uses `||`.) -/
def jsNullish (a b : JSVal) : JSVal :=
  match a with
  | .vNull => b
  | .vUndefined => b
  | v => v

/-- Boolean test that `getField d f` is the string `s`. -/
def fieldIsStr (d : JSVal) (f s : String) : Bool :=
  match getField d f with
  | .vStr t => t = s
  | _ => false

namespace GeminiTools

/-!
Embedding of `js/tools/tool-manager.js` (`ToolManager`), the broker that the
Gemini live session delivers function calls to.
-/

/-- A locally registered tool: `execute(args)` may return a value or throw
(`Except.error msg` models a thrown error whose `.message` is `msg`);
`getDeclaration` is `some d` when the instance has a `getDeclaration` method
returning the declaration `d`, `none` when the method is absent. -/
structure LocalTool where
  execute : JSVal → Except String JSVal
  getDeclaration : Option JSVal

/-- Broker state: `tools` is the `Map` of locally registered tools (insertion
order preserved, keys unique); `composioTools` is the per-app `Map` of
Composio tool arrays set by `registerComposioTool`. -/
structure ToolManagerState where
  tools : List (String × LocalTool)
  composioTools : List (String × List JSVal)

/-- Fresh `ToolManager` (constructor): both maps empty. -/
def emptyState : ToolManagerState := ⟨[], []⟩

/-- `registerTool(name, toolInstance)`: if `name` already present, warn and
return (state unchanged, original instance retained); otherwise insert. -/
def registerTool (st : ToolManagerState) (name : String) (tool : LocalTool) :
    ToolManagerState :=
  if (st.tools.find? (fun p => p.1 = name)).isSome then st
  else { st with tools := st.tools ++ [(name, tool)] }

/-- The connector-sourced declarations contributed by `getToolDeclarations`:
for each registered app, each stored Composio tool's `.function` field, in
app-registration order. -/
def composioDeclarations (st : ToolManagerState) : List JSVal :=
  (st.composioTools.map (fun p => p.2.map (fun t => getField t "function"))).flatten

/-- `getToolDeclarations()`: every local tool's declaration (skipping tools
without a `getDeclaration` method), then every Composio tool's `.function`. -/
def getToolDeclarations (st : ToolManagerState) : List JSVal :=
  st.tools.filterMap (fun p => p.2.getDeclaration) ++ composioDeclarations st

/-- External collaborator `composioAPI` (module `composio-api.js`, outside the
broker): connection predicate and tool executor.  `executeTool` returning
`Except.error msg` models a thrown error with message `msg`. -/
structure ComposioEnv where
  isConnected : String → Bool
  executeTool : String → JSVal → Except String JSVal

/-- A function-call request as destructured by `handleToolCall`:
`const { name, args, id } = functionCall`. -/
structure FunctionCall where
  name : String
  args : JSVal
  id : JSVal

/-- The result envelope literal `{output, id, error}` built by
`handleToolCall` (exactly these three keys, in this order). -/
def mkResult (output : JSVal) (id : JSVal) (error : JSVal) : JSVal :=
  .vObj [("output", output), ("id", id), ("error", error)]

/-- `name.match(/^([a-z]+)_/)`: the captured group is the maximal run of
lowercase ASCII letters at the start of the name, and the match succeeds
exactly when that run is nonempty and immediately followed by `_`. -/
def appNameMatch (name : String) : Option String :=
  let p := name.data.takeWhile (fun c => 'a' ≤ c && c ≤ 'z')
  if p.isEmpty then none
  else if (name.data.drop p.length).head? = some '_' then some (String.mk p)
  else none

/-- The local-tool branch of `handleToolCall` (lines 111-137): `Map` lookup,
tool-not-found envelope, execute with try/catch. -/
def handleLocalTool (st : ToolManagerState) (fc : FunctionCall) : JSVal :=
  match st.tools.find? (fun p => p.1 = fc.name) with
  | none => mkResult .vNull fc.id (.vStr ("Tool not found: " ++ fc.name))
  | some p =>
    match p.2.execute fc.args with
    | .ok result => mkResult result fc.id .vNull
    | .error msg => mkResult .vNull fc.id (.vStr msg)

/-- `handleToolCall(functionCall)`: if the name matches `^([a-z]+)_` and the
captured app is connected, execute through Composio, wrapping a successful
`result` as `{output: result.output || result, id, error: null}` and a thrown
error as `{output: null, id, error: message}`; otherwise fall through to the
local-tool branch. -/
def handleToolCall (env : ComposioEnv) (st : ToolManagerState)
    (fc : FunctionCall) : JSVal :=
  match appNameMatch fc.name with
  | some app =>
    if env.isConnected app then
      match env.executeTool fc.name fc.args with
      | .ok result => mkResult (jsOr (getField result "output") result) fc.id .vNull
      | .error msg => mkResult .vNull fc.id (.vStr msg)
    else handleLocalTool st fc
  | none => handleLocalTool st fc

end GeminiTools

namespace ComposioCache

/-!
Embedding of `js/integrations/tool-manager.js` (`ToolManager`), the cached
Composio tool source.  The cache is the plain object `this.toolCache`,
modelled as an ordered association list with unique string keys.  The
`initialized` flag only gates a call to the external integration's
`initialize()`; the embedding models the manager's behaviour once that call
has completed, which is the state every claim here concerns.
-/

/-- External collaborator `composioIntegration`: connection predicate and the
backend tool-listing call (`composioIntegration.getTools`), which may throw. -/
structure Env where
  isConnected : String → Bool
  fetchTools : String → List String → List String → Except String (List JSVal)

/-- `this.toolCache`: cache-key string to cached tool array. -/
abbrev Cache := List (String × List JSVal)

/-- Fresh cache (constructor: `this.toolCache = {}`). -/
def emptyCache : Cache := []

/-- The cache key built by `getTools`:
`` `${appName}_${actions.join(',')}_${tags.join(',')}` `` — the filter lists
are joined in the order the caller supplied them, with no sorting. -/
def cacheKey (appName : String) (actions tags : List String) : String :=
  appName ++ "_" ++ String.intercalate "," actions ++ "_"
    ++ String.intercalate "," tags

/-- Outcome of one `getTools` call: the returned (or thrown) value, the cache
afterwards, and how many backend (`composioIntegration.getTools`) calls were
made during it. -/
structure Outcome where
  result : Except String (List JSVal)
  cache : Cache
  backendCalls : Nat

/-- `getTools(appName, actions = [], tags = [])`: throw if the app is not
connected (before any cache access); otherwise return the cached array for
the key if present, else fetch from the backend, cache and return it
(backend throws propagate, and nothing is cached then). -/
def getTools (env : Env) (cache : Cache) (appName : String)
    (actions tags : List String) : Outcome :=
  if env.isConnected appName then
    let key := cacheKey appName actions tags
    match cache.find? (fun p => p.1 = key) with
    | some p => ⟨.ok p.2, cache, 0⟩
    | none =>
      match env.fetchTools appName actions tags with
      | .ok tools => ⟨.ok tools, cache ++ [(key, tools)], 1⟩
      | .error e => ⟨.error e, cache, 1⟩
  else ⟨.error ("Not connected to " ++ appName ++ ". Please connect first."),
    cache, 0⟩

/-- `clearCache()`: `this.toolCache = {}` — every entry dropped. -/
def clearCache (_cache : Cache) : Cache := []

end ComposioCache

namespace MCP

/-!
Embedding of `js/mcp/mcp-client.js` (`MCPClient`): the batched
personalization (Second-Me) tool-call path.
-/

/-- External collaborators: `JSON.parse` (a host builtin), modelled as a
function returning the parsed value or the message the catch site would
extract from the thrown `SyntaxError`. -/
structure Env where
  jsonParse : String → Except String JSVal

/-- An entry of `this.tools` (`Map<name, {description, handler, schema}>`).
`handler` returning `Except.error msg` models a thrown error whose extracted
message (`error.message || String(error)`) is `msg`. -/
structure Tool where
  description : String
  handler : JSVal → Except String JSVal
  schema : JSVal

/-- Client state: the registered-tool map, insertion ordered. -/
structure State where
  tools : List (String × Tool)

/-- A tool call as destructured by `handleToolCall`:
`const { name, id, arguments: args } = toolCall`. -/
structure ToolCall where
  name : String
  id : JSVal
  arguments : JSVal

/-- `typeof args === 'string' ? JSON.parse(args) : args`. -/
def parseArgs (env : Env) (args : JSVal) : Except String JSVal :=
  match args with
  | .vStr s => env.jsonParse s
  | v => .ok v

/-- The error envelope `{toolCallId, name, status: 'error', error}`. -/
def errResult (tc : ToolCall) (msg : String) : JSVal :=
  .vObj [("toolCallId", tc.id), ("name", .vStr tc.name),
    ("status", .vStr "error"), ("error", .vStr msg)]

/-- `handleToolCall(toolCall)`: not-found gives an error envelope; otherwise
argument decoding and the handler run inside one try/catch, a throw from
either producing an error envelope, success producing
`{toolCallId, name, status: 'success', result}`.  Every path returns — the
promise never rejects. -/
def handleToolCall (env : Env) (st : State) (tc : ToolCall) : JSVal :=
  match st.tools.find? (fun p => p.1 = tc.name) with
  | none => errResult tc ("Tool not found: " ++ tc.name)
  | some p =>
    match parseArgs env tc.arguments with
    | .error msg => errResult tc msg
    | .ok parsed =>
      match p.2.handler parsed with
      | .ok result =>
        .vObj [("toolCallId", tc.id), ("name", .vStr tc.name),
          ("status", .vStr "success"), ("result", result)]
      | .error msg => errResult tc msg

/-- The message listener installed by `setupEventListeners`, as a function
from the incoming message's `toolCalls` content (`some calls` when
`content.toolCalls` is an array, `none` otherwise) to the list of messages
sent back through `adapter.sendMessage`: a batch yields exactly one
`tool_results` message whose `results` array collects, in call order, every
call's result (`Promise.all` join barrier); a message without tool calls
yields nothing. -/
def onMessage (env : Env) (st : State) (toolCalls : Option (List ToolCall)) :
    List JSVal :=
  match toolCalls with
  | some tcs =>
    [.vObj [("type", .vStr "tool_results"),
      ("results", .vArr (tcs.map (handleToolCall env st)))]]
  | none => []

end MCP

namespace SecondMeMemory

/-!
Embedding of `SecondMeMemory.retrieveMemories` (Second-Me memory bridge).
A caller-supplied `options` JS object is an ordered association list with
unique keys.
-/

/-- `o[k]` on an options object: `undefined` when the key is absent. -/
def jsGet (o : List (String × JSVal)) (k : String) : JSVal :=
  match o.find? (fun p => p.1 = k) with
  | some p => p.2
  | none => .vUndefined

/-- One property assignment during object-literal evaluation: overwrite in
place if the key exists, else append. -/
def objSet (o : List (String × JSVal)) (k : String) (v : JSVal) :
    List (String × JSVal) :=
  if (o.find? (fun p => p.1 = k)).isSome then
    o.map (fun p => if p.1 = k then (k, v) else p)
  else o ++ [(k, v)]

/-- Object spread `{...base, ...extra}`: assign each property of `extra`
over `base`, in order. -/
def objSpread (base extra : List (String × JSVal)) : List (String × JSVal) :=
  extra.foldl (fun acc p => objSet acc p.1 p.2) base

/-- The `retrievalOptions` object literal built by `retrieveMemories`:
each default is `options.field || default`, then `...options` is spread over
the four defaulted fields. -/
def retrievalOptions (options : List (String × JSVal)) :
    List (String × JSVal) :=
  objSpread
    [("limit", jsOr (jsGet options "limit") (.vNum 10)),
     ("offset", jsOr (jsGet options "offset") (.vNum 0)),
     ("sortBy", jsOr (jsGet options "sortBy") (.vStr "timestamp")),
     ("sortDirection", jsOr (jsGet options "sortDirection") (.vStr "desc"))]
    options

/-- The default retrieval options, in literal order — the spec's
`{limit: 10, offset: 0, sortBy: "timestamp", sortDirection: "desc"}`. -/
def defaultRetrievalOptions : List (String × JSVal) :=
  [("limit", .vNum 10), ("offset", .vNum 0), ("sortBy", .vStr "timestamp"),
   ("sortDirection", .vStr "desc")]

/-- `retrieveMemories(query, options)`: the message handed to
`adapter.sendMessage` (adapter errors propagate to the caller unchanged). -/
def retrieveMemories (query : JSVal) (options : List (String × JSVal)) :
    JSVal :=
  .vObj [("type", .vStr "memory"), ("action", .vStr "retrieve"),
    ("query", query), ("options", .vObj (retrievalOptions options))]

end SecondMeMemory

/-! ### Shared facts about the broker's result envelope -/

theorem getField_mkResult_output (out id err : JSVal) :
    getField (GeminiTools.mkResult out id err) "output" = out := rfl

theorem getField_mkResult_id (out id err : JSVal) :
    getField (GeminiTools.mkResult out id err) "id" = id := rfl

theorem getField_mkResult_status (out id err : JSVal) :
    getField (GeminiTools.mkResult out id err) "status" = .vUndefined := rfl

theorem getField_mkResult_name (out id err : JSVal) :
    getField (GeminiTools.mkResult out id err) "name" = .vUndefined := rfl

/-- Every exit of the local-tool branch is an `{output, id, error}` envelope
echoing the request id, with `error` either `null` or (with `output` null)
a message string. -/
theorem handleLocalTool_shape (st : GeminiTools.ToolManagerState)
    (fc : GeminiTools.FunctionCall) :
    ∃ out err, GeminiTools.handleLocalTool st fc = GeminiTools.mkResult out fc.id err ∧
      (err = .vNull ∨ (out = .vNull ∧ ∃ m, err = .vStr m)) := by
  unfold GeminiTools.handleLocalTool
  cases hf : st.tools.find? (fun p => p.1 = fc.name) with
  | none => exact ⟨_, _, rfl, .inr ⟨rfl, _, rfl⟩⟩
  | some p =>
    dsimp only
    cases hx : p.2.execute fc.args with
    | ok r => exact ⟨r, _, rfl, .inl rfl⟩
    | error m => exact ⟨_, _, rfl, .inr ⟨rfl, m, rfl⟩⟩

/-- Every exit of `handleToolCall` is an `{output, id, error}` envelope
echoing the request id, with `error` either `null` or (with `output` null)
a message string. -/
theorem handleToolCall_shape (env : GeminiTools.ComposioEnv)
    (st : GeminiTools.ToolManagerState) (fc : GeminiTools.FunctionCall) :
    ∃ out err, GeminiTools.handleToolCall env st fc = GeminiTools.mkResult out fc.id err ∧
      (err = .vNull ∨ (out = .vNull ∧ ∃ m, err = .vStr m)) := by
  unfold GeminiTools.handleToolCall
  cases hm : GeminiTools.appNameMatch fc.name with
  | none => exact handleLocalTool_shape st fc
  | some app =>
    by_cases hc : env.isConnected app
    · simp only [hc, if_true]
      cases hx : env.executeTool fc.name fc.args with
      | ok r => exact ⟨_, _, rfl, .inl rfl⟩
      | error m => exact ⟨_, _, rfl, .inr ⟨rfl, m, rfl⟩⟩
    · simp only [hc, if_false]
      exact handleLocalTool_shape st fc

/-! ### Claim C1 -/

/-- Claim C1: a call whose name matches `^[a-z]+_` but whose captured app is
not connected bypasses the connector executor and takes the local-tool
branch; when no local tool of that name is registered the broker returns
`{output: null, id, error: "Tool not found: <name>"}`. -/
theorem c1_unconnected_app_falls_through_to_local (env : GeminiTools.ComposioEnv)
    (st : GeminiTools.ToolManagerState) (fc : GeminiTools.FunctionCall)
    (app : String) (hm : GeminiTools.appNameMatch fc.name = some app)
    (hc : env.isConnected app = false) :
    GeminiTools.handleToolCall env st fc = GeminiTools.handleLocalTool st fc ∧
    (st.tools.find? (fun p => p.1 = fc.name) = none →
      GeminiTools.handleToolCall env st fc =
        GeminiTools.mkResult .vNull fc.id
          (.vStr ("Tool not found: " ++ fc.name))) := by
  have hroute : GeminiTools.handleToolCall env st fc =
      GeminiTools.handleLocalTool st fc := by
    unfold GeminiTools.handleToolCall
    rw [hm]
    simp [hc]
  refine ⟨hroute, fun hfind => ?_⟩
  rw [hroute]
  unfold GeminiTools.handleLocalTool
  rw [hfind]

def c1Env : GeminiTools.ComposioEnv :=
  ⟨fun _ => false, fun _ _ => .ok .vNull⟩

def c1Call : GeminiTools.FunctionCall :=
  ⟨"ab_doSomething", .vNull, .vStr "id1"⟩

theorem c1_unconnected_app_falls_through_to_local_witness :
    GeminiTools.handleToolCall c1Env GeminiTools.emptyState c1Call =
      GeminiTools.mkResult .vNull (.vStr "id1")
        (.vStr "Tool not found: ab_doSomething") :=
  (c1_unconnected_app_falls_through_to_local c1Env GeminiTools.emptyState
    c1Call "ab" rfl rfl).2 rfl

/-! ### Claim C2 -/

/-- Claim C2 (amended): `handleToolCall` never lets an executor exception
escape; it always returns the envelope `{output, id, error}` with `id`
echoing the request's id, where on failure `output` is null and `error` is
the message string and on success `error` is null — but the envelope carries
no `name` and no `status` field (the claim's `name`/`status` conjunct fails,
see the counterexample). -/
theorem c2_result_envelope_amended (env : GeminiTools.ComposioEnv)
    (st : GeminiTools.ToolManagerState) (fc : GeminiTools.FunctionCall) :
    (∃ out err, GeminiTools.handleToolCall env st fc =
        GeminiTools.mkResult out fc.id err ∧
      (err = .vNull ∨ (out = .vNull ∧ ∃ m, err = .vStr m))) ∧
    getField (GeminiTools.handleToolCall env st fc) "id" = fc.id ∧
    getField (GeminiTools.handleToolCall env st fc) "status" = .vUndefined ∧
    getField (GeminiTools.handleToolCall env st fc) "name" = .vUndefined := by
  obtain ⟨out, err, heq, hcase⟩ := handleToolCall_shape env st fc
  exact ⟨⟨out, err, heq, hcase⟩, by rw [heq]; exact getField_mkResult_id _ _ _,
    by rw [heq]; exact getField_mkResult_status _ _ _,
    by rw [heq]; exact getField_mkResult_name _ _ _⟩

def c2Env : GeminiTools.ComposioEnv :=
  ⟨fun _ => false, fun _ _ => .ok .vNull⟩

def c2Call : GeminiTools.FunctionCall :=
  ⟨"someLocalTool", .vNull, .vStr "id2"⟩

/-- Claim C2 counterexample: at a concrete request the returned envelope has
no `status` field and no `name` field (`undefined`), contradicting the
claim that `name` and `status` are populated as the `ToolCallResult` shape
specifies. -/
theorem c2_no_status_or_name_field_counterexample :
    getField (GeminiTools.handleToolCall c2Env GeminiTools.emptyState c2Call)
      "status" = .vUndefined ∧
    getField (GeminiTools.handleToolCall c2Env GeminiTools.emptyState c2Call)
      "name" = .vUndefined := ⟨rfl, rfl⟩

/-! ### Claim C3 -/

/-- Claim C3 (amended): on a connector-routed call whose backend execution
succeeds with `r`, the broker returns `{output: r.output || r, id, error:
null}` — truthiness-based, so `output` is `r.output` whenever `r.output` is
truthy and `r` itself otherwise (falsy outputs such as `0`, `""` or `false`
yield `r`, not `r.output` — the claim's `??` reading fails, see the
counterexample); on a thrown backend error it returns
`{output: null, id, error: message}`. -/
theorem c3_connector_wrap_uses_logical_or (env : GeminiTools.ComposioEnv)
    (st : GeminiTools.ToolManagerState) (fc : GeminiTools.FunctionCall)
    (app : String) (hm : GeminiTools.appNameMatch fc.name = some app)
    (hc : env.isConnected app = true) :
    (∀ r, env.executeTool fc.name fc.args = .ok r →
      GeminiTools.handleToolCall env st fc =
        GeminiTools.mkResult (jsOr (getField r "output") r) fc.id .vNull) ∧
    (∀ msg, env.executeTool fc.name fc.args = .error msg →
      GeminiTools.handleToolCall env st fc =
        GeminiTools.mkResult .vNull fc.id (.vStr msg)) := by
  constructor <;>
    · intro x hx
      unfold GeminiTools.handleToolCall
      rw [hm]
      simp [hc, hx]

def c3OkEnv : GeminiTools.ComposioEnv :=
  ⟨fun _ => true, fun _ _ => .ok (.vObj [("output", .vStr "hi")])⟩

def c3OkCall : GeminiTools.FunctionCall :=
  ⟨"gmail_sendEmail", .vNull, .vStr "id3"⟩

theorem c3_connector_wrap_uses_logical_or_witness :
    GeminiTools.handleToolCall c3OkEnv GeminiTools.emptyState c3OkCall =
      GeminiTools.mkResult (.vStr "hi") (.vStr "id3") .vNull :=
  (c3_connector_wrap_uses_logical_or c3OkEnv GeminiTools.emptyState c3OkCall
    "gmail" rfl rfl).1 (.vObj [("output", .vStr "hi")]) rfl

/-- The backend result used in the C3 counterexample: its `output` field is
`false`, which is falsy but neither `null` nor `undefined`. -/
def c3FalsyResult : JSVal := .vObj [("output", .vBool false)]

def c3FalsyEnv : GeminiTools.ComposioEnv :=
  ⟨fun _ => true, fun _ _ => .ok c3FalsyResult⟩

def c3FalsyCall : GeminiTools.FunctionCall :=
  ⟨"ab_doThing", .vNull, .vStr "id3x"⟩

/-- Claim C3 counterexample: for a successful backend result `r` with
`r.output = false`, the broker's `output` is the whole `r` (because `||` is
truthiness-based), while the claimed `r.output ?? r` would be `false`; the
two differ. -/
theorem c3_falsy_output_counterexample :
    getField (GeminiTools.handleToolCall c3FalsyEnv GeminiTools.emptyState
      c3FalsyCall) "output" = c3FalsyResult ∧
    jsNullish (getField c3FalsyResult "output") c3FalsyResult = .vBool false ∧
    c3FalsyResult ≠ .vBool false := by
  refine ⟨rfl, rfl, fun h => ?_⟩
  exact absurd (congrArg JSVal.ctorIdx h) (by decide)

/-! ### Claim C4 -/

/-- Counting matching declarations contributed by the local registry:
a tool counts exactly when it has a declaration satisfying `q`. -/
theorem countP_filterMap_getDeclaration
    (l : List (String × GeminiTools.LocalTool)) (q : JSVal → Bool) :
    (l.filterMap (fun p => p.2.getDeclaration)).countP q =
      l.countP (fun p => (p.2.getDeclaration.map q).getD false) := by
  induction l with
  | nil => rfl
  | cons hd tl ih =>
    cases hdecl : hd.2.getDeclaration <;>
      simp [List.filterMap_cons, hdecl, List.countP_cons, ih]

/-- Claim C4 (amended): registering a name that is already present is a
no-op retaining the originally registered tool instance, and the number of
`getToolDeclarations()` entries whose `name` is a given string equals the
number of registered local tools whose own declaration carries that name
plus the number of connector-sourced declarations carrying it — so a
registered tool's declared name appears exactly once exactly when no other
local tool and no connector declaration shares it; the claim's
unconditional "exactly one entry" fails when two registered tools declare
the same name (see the counterexample). -/
theorem c4_register_noop_and_declaration_count :
    (∀ st name t t',
      GeminiTools.registerTool (GeminiTools.registerTool st name t) name t' =
        GeminiTools.registerTool st name t) ∧
    (∀ st nm,
      (GeminiTools.getToolDeclarations st).countP
          (fun d => fieldIsStr d "name" nm) =
        st.tools.countP (fun p =>
          (p.2.getDeclaration.map (fun d => fieldIsStr d "name" nm)).getD false)
        + (GeminiTools.composioDeclarations st).countP
            (fun d => fieldIsStr d "name" nm)) := by
  constructor
  · intro st name t t'
    by_cases h : (st.tools.find? (fun p => p.1 = name)).isSome
    · simp [GeminiTools.registerTool, h]
    · have happ : ((st.tools ++ [(name, t)]).find?
          (fun p => p.1 = name)).isSome := by
        rw [List.find?_isSome]
        exact ⟨(name, t), by simp, by simp⟩
      simp [GeminiTools.registerTool, h, happ]
  · intro st nm
    unfold GeminiTools.getToolDeclarations
    rw [List.countP_append, countP_filterMap_getDeclaration]

def c4Decl : JSVal := .vObj [("name", .vStr "x")]

def c4Tool : GeminiTools.LocalTool := ⟨fun _ => .ok .vNull, some c4Decl⟩

/-- Two distinct registry names, both declaring the name `"x"`. -/
def c4State : GeminiTools.ToolManagerState :=
  GeminiTools.registerTool
    (GeminiTools.registerTool GeminiTools.emptyState "t1" c4Tool) "t2" c4Tool

/-- Claim C4 counterexample: with tools registered under `"t1"` and `"t2"`
both declaring the name `"x"`, `getToolDeclarations()` contains two entries
whose `name` is `"x"` — not exactly one for the registered tool `"t1"`. -/
theorem c4_duplicate_declared_name_counterexample :
    (c4State.tools.find? (fun p => p.1 = "t1")).isSome = true ∧
    (c4State.tools.find? (fun p => p.1 = "t1")).map
      (fun p => p.2.getDeclaration) = some (some c4Decl) ∧
    fieldIsStr c4Decl "name" "x" = true ∧
    (GeminiTools.getToolDeclarations c4State).countP
      (fun d => fieldIsStr d "name" "x") = 2 :=
  ⟨rfl, rfl, rfl, rfl⟩

/-! ### Claim C5 -/

/-- Claim C5: starting from a fresh cache, the first `getTools(app, [], [])`
call on a connected app makes exactly one backend call; the second
identical call returns the same tool array from the cache with zero backend
calls and leaves the cache unchanged; after `clearCache()` a third identical
call makes exactly one new backend call. -/
theorem c5_second_call_cached_and_clear_refetches (env : ComposioCache.Env)
    (app : String) (tools : List JSVal) (hc : env.isConnected app = true)
    (hb : env.fetchTools app [] [] = .ok tools) :
    (ComposioCache.getTools env ComposioCache.emptyCache app [] []).backendCalls
        = 1 ∧
    (ComposioCache.getTools env ComposioCache.emptyCache app [] []).result
        = .ok tools ∧
    (ComposioCache.getTools env
        (ComposioCache.getTools env ComposioCache.emptyCache app [] []).cache
        app [] []).backendCalls = 0 ∧
    (ComposioCache.getTools env
        (ComposioCache.getTools env ComposioCache.emptyCache app [] []).cache
        app [] []).result = .ok tools ∧
    (ComposioCache.getTools env
        (ComposioCache.getTools env ComposioCache.emptyCache app [] []).cache
        app [] []).cache =
      (ComposioCache.getTools env ComposioCache.emptyCache app [] []).cache ∧
    (ComposioCache.getTools env
        (ComposioCache.clearCache
          (ComposioCache.getTools env ComposioCache.emptyCache app [] []).cache)
        app [] []).backendCalls = 1 ∧
    (ComposioCache.getTools env
        (ComposioCache.clearCache
          (ComposioCache.getTools env ComposioCache.emptyCache app [] []).cache)
        app [] []).result = .ok tools := by
  have h1 : ComposioCache.getTools env ComposioCache.emptyCache app [] [] =
      ⟨.ok tools, [(ComposioCache.cacheKey app [] [], tools)], 1⟩ := by
    unfold ComposioCache.getTools ComposioCache.emptyCache
    simp [hc, hb]
  have hkey : ([(ComposioCache.cacheKey app [] [], tools)].find?
      (fun p => p.1 = ComposioCache.cacheKey app [] [])) =
      some (ComposioCache.cacheKey app [] [], tools) := by
    simp [List.find?]
  have h2 : ComposioCache.getTools env
      [(ComposioCache.cacheKey app [] [], tools)] app [] [] =
      ⟨.ok tools, [(ComposioCache.cacheKey app [] [], tools)], 0⟩ := by
    unfold ComposioCache.getTools
    simp [hc, hkey]
  have h3 : ComposioCache.getTools env
      (ComposioCache.clearCache [(ComposioCache.cacheKey app [] [], tools)])
      app [] [] =
      ⟨.ok tools, [(ComposioCache.cacheKey app [] [], tools)], 1⟩ := by
    unfold ComposioCache.getTools ComposioCache.clearCache
    simp [hc, hb]
  rw [h1]
  rw [h2, h3]
  exact ⟨rfl, rfl, rfl, rfl, rfl, rfl, rfl⟩

def c5Env : ComposioCache.Env :=
  ⟨fun _ => true, fun _ _ _ => .ok [.vObj [("function", .vStr "f")]]⟩

theorem c5_second_call_cached_and_clear_refetches_witness :
    (ComposioCache.getTools c5Env ComposioCache.emptyCache "gmail" [] []).backendCalls
        = 1 ∧
    (ComposioCache.getTools c5Env
        (ComposioCache.getTools c5Env ComposioCache.emptyCache "gmail" [] []).cache
        "gmail" [] []).backendCalls = 0 ∧
    (ComposioCache.getTools c5Env
        (ComposioCache.clearCache
          (ComposioCache.getTools c5Env ComposioCache.emptyCache "gmail" [] []).cache)
        "gmail" [] []).backendCalls = 1 := by
  have h := c5_second_call_cached_and_clear_refetches c5Env "gmail"
    [.vObj [("function", .vStr "f")]] rfl rfl
  exact ⟨h.1, h.2.2.1, h.2.2.2.2.2.1⟩

/-! ### Claim C6 -/

/-- Claim C6: for an app that is not connected, `getTools` throws the
not-connected error to the caller before any cache access — the cache is
left untouched, no backend call is made, and this holds whether or not a
cached entry for the app exists. -/
theorem c6_not_connected_error_surfaced (env : ComposioCache.Env)
    (cache : ComposioCache.Cache) (app : String) (actions tags : List String)
    (hc : env.isConnected app = false) :
    ComposioCache.getTools env cache app actions tags =
      ⟨.error ("Not connected to " ++ app ++ ". Please connect first."),
        cache, 0⟩ := by
  unfold ComposioCache.getTools
  simp [hc]

def c6Env : ComposioCache.Env :=
  ⟨fun _ => false, fun _ _ _ => .ok []⟩

def c6Cache : ComposioCache.Cache :=
  [(ComposioCache.cacheKey "gmail" [] [], [.vNull])]

theorem c6_not_connected_error_surfaced_witness :
    ComposioCache.getTools c6Env c6Cache "gmail" [] [] =
      ⟨.error "Not connected to gmail. Please connect first.", c6Cache, 0⟩ :=
  c6_not_connected_error_surfaced c6Env c6Cache "gmail" [] [] rfl

/-! ### Claim C7 -/

/-- Claim C7 (amended): the cache is keyed by the app name and the two
filter lists joined in the order the caller supplied them (no sorting), so
a repeat call with the filter lists in the identical order hits the entry
stored by the first call (zero backend calls) — but a permutation of a
filter list yields a different key and misses (see the counterexample). -/
theorem c7_identical_order_hits_cache (env : ComposioCache.Env) (app : String)
    (actions tags : List String) (tools : List JSVal)
    (hc : env.isConnected app = true)
    (hb : env.fetchTools app actions tags = .ok tools) :
    (ComposioCache.getTools env
        (ComposioCache.getTools env ComposioCache.emptyCache app actions tags).cache
        app actions tags).backendCalls = 0 ∧
    (ComposioCache.getTools env
        (ComposioCache.getTools env ComposioCache.emptyCache app actions tags).cache
        app actions tags).result = .ok tools := by
  have h1 : ComposioCache.getTools env ComposioCache.emptyCache app actions tags =
      ⟨.ok tools, [(ComposioCache.cacheKey app actions tags, tools)], 1⟩ := by
    unfold ComposioCache.getTools ComposioCache.emptyCache
    simp [hc, hb]
  have hkey : ([(ComposioCache.cacheKey app actions tags, tools)].find?
      (fun p => p.1 = ComposioCache.cacheKey app actions tags)) =
      some (ComposioCache.cacheKey app actions tags, tools) := by
    simp [List.find?]
  rw [h1]
  unfold ComposioCache.getTools
  simp [hc, hkey]

theorem c7_identical_order_hits_cache_witness :
    (ComposioCache.getTools c5Env
        (ComposioCache.getTools c5Env ComposioCache.emptyCache "app"
          ["a", "b"] []).cache
        "app" ["a", "b"] []).backendCalls = 0 :=
  (c7_identical_order_hits_cache c5Env "app" ["a", "b"] []
    [.vObj [("function", .vStr "f")]] rfl rfl).1

/-- Claim C7 counterexample: the two filter orders `["a","b"]` and
`["b","a"]` produce different cache keys, and the second call — a
permutation of the first — misses the cache and makes a backend call
instead of hitting the entry stored by the first. -/
theorem c7_permutation_misses_counterexample :
    ComposioCache.cacheKey "app" ["a", "b"] [] ≠
      ComposioCache.cacheKey "app" ["b", "a"] [] ∧
    (ComposioCache.getTools c5Env
        (ComposioCache.getTools c5Env ComposioCache.emptyCache "app"
          ["a", "b"] []).cache
        "app" ["b", "a"] []).backendCalls = 1 :=
  ⟨by decide, rfl⟩

/-! ### Claim C8 -/

/-- Claim C8: a batched personalization message carrying `n` tool calls is
answered by exactly one `tool_results` message whose `results` array holds
exactly `n` entries, one per call in call order (join-all barrier); a call
dispatched to a registered handler with decodable arguments contributes a
`status: "error"` entry exactly when its handler throws and a
`status: "success"` entry exactly when it returns — one failing call never
suppresses the other calls' entries. -/
theorem c8_batched_reply_is_single_join_all (env : MCP.Env) (st : MCP.State)
    (tcs : List MCP.ToolCall) :
    MCP.onMessage env st (some tcs) =
      [.vObj [("type", .vStr "tool_results"),
        ("results", .vArr (tcs.map (MCP.handleToolCall env st)))]] ∧
    (tcs.map (MCP.handleToolCall env st)).length = tcs.length ∧
    (∀ tc ∈ tcs, ∀ p, st.tools.find? (fun q => q.1 = tc.name) = some p →
      ∀ args, MCP.parseArgs env tc.arguments = .ok args →
        (∀ m, p.2.handler args = .error m →
          getField (MCP.handleToolCall env st tc) "status" = .vStr "error") ∧
        (∀ r, p.2.handler args = .ok r →
          getField (MCP.handleToolCall env st tc) "status" = .vStr "success")) := by
  refine ⟨rfl, List.length_map _ _, ?_⟩
  intro tc _ p hp args hargs
  constructor
  · intro m hm
    unfold MCP.handleToolCall
    rw [hp]
    dsimp only
    rw [hargs]
    dsimp only
    rw [hm]
    rfl
  · intro r hr
    unfold MCP.handleToolCall
    rw [hp]
    dsimp only
    rw [hargs]
    dsimp only
    rw [hr]
    rfl

def c8Env : MCP.Env := ⟨fun _ => .ok .vNull⟩

def c8Tool : MCP.Tool := ⟨"always throws", fun _ => .error "boom", .vNull⟩

def c8State : MCP.State := ⟨[("f", c8Tool)]⟩

def c8Call : MCP.ToolCall := ⟨"f", .vStr "i1", .vNull⟩

theorem c8_batched_reply_is_single_join_all_witness :
    getField (MCP.handleToolCall c8Env c8State c8Call) "status" =
      .vStr "error" :=
  ((c8_batched_reply_is_single_join_all c8Env c8State [c8Call]).2.2 c8Call
    (List.mem_cons_self _ _) ("f", c8Tool) rfl .vNull rfl).1 "boom" rfl

/-! ### Claim C10 -/

/-- Claim C10: in the batched path, a call whose handler is registered but
whose `arguments` is a string that `JSON.parse` rejects yields a
`status: "error"` result carrying the parse-error message instead of a
rejected promise, and a batch containing such a call still produces one
reply with a result entry for every call. -/
theorem c10_json_decode_failure_contained (env : MCP.Env) (st : MCP.State)
    (tc : MCP.ToolCall) (s msg : String) (p : String × MCP.Tool)
    (hp : st.tools.find? (fun q => q.1 = tc.name) = some p)
    (hs : tc.arguments = .vStr s) (hj : env.jsonParse s = .error msg) :
    MCP.handleToolCall env st tc = MCP.errResult tc msg ∧
    getField (MCP.handleToolCall env st tc) "status" = .vStr "error" ∧
    getField (MCP.handleToolCall env st tc) "error" = .vStr msg ∧
    (∀ pre post, MCP.onMessage env st (some (pre ++ tc :: post)) =
      [.vObj [("type", .vStr "tool_results"),
        ("results", .vArr (pre.map (MCP.handleToolCall env st) ++
          MCP.handleToolCall env st tc ::
            post.map (MCP.handleToolCall env st)))]]) := by
  have hmain : MCP.handleToolCall env st tc = MCP.errResult tc msg := by
    unfold MCP.handleToolCall
    rw [hp]
    dsimp only
    have hargs : MCP.parseArgs env tc.arguments = .error msg := by
      rw [hs]
      exact hj
    rw [hargs]
  refine ⟨hmain, by rw [hmain]; rfl, by rw [hmain]; rfl, ?_⟩
  intro pre post
  simp [MCP.onMessage]

def c10Env : MCP.Env := ⟨fun _ => .error "Unexpected token"⟩

def c10Call : MCP.ToolCall := ⟨"f", .vStr "i2", .vStr "not json"⟩

theorem c10_json_decode_failure_contained_witness :
    MCP.handleToolCall c10Env c8State c10Call =
      MCP.errResult c10Call "Unexpected token" :=
  (c10_json_decode_failure_contained c10Env c8State c10Call "not json"
    "Unexpected token" ("f", c8Tool) rfl rfl rfl).1


/-! ### Claim C9 -/

theorem jsGet_nil (k : String) : SecondMeMemory.jsGet [] k = .vUndefined := rfl

theorem jsGet_cons (a : String) (w : JSVal) (tl : List (String × JSVal))
    (k : String) :
    SecondMeMemory.jsGet ((a, w) :: tl) k =
      if a = k then w else SecondMeMemory.jsGet tl k := by
  unfold SecondMeMemory.jsGet
  rw [List.find?_cons]
  by_cases h : a = k
  · simp [h]
  · simp [h]

theorem jsGet_of_find?_none (o : List (String × JSVal)) (k : String)
    (h : o.find? (fun p => p.1 = k) = none) :
    SecondMeMemory.jsGet o k = .vUndefined := by
  unfold SecondMeMemory.jsGet
  rw [h]

theorem jsGet_append (l₁ l₂ : List (String × JSVal)) (k : String) :
    SecondMeMemory.jsGet (l₁ ++ l₂) k =
      if (l₁.find? (fun p => p.1 = k)).isSome then SecondMeMemory.jsGet l₁ k
      else SecondMeMemory.jsGet l₂ k := by
  unfold SecondMeMemory.jsGet
  rw [List.find?_append]
  cases h : l₁.find? (fun p => decide (p.1 = k)) with
  | none => simp
  | some p => simp

/-- Replacing the value stored under `k` affects lookups only at `k`, and
only when `k` is actually present. -/
theorem jsGet_replaceValue (l : List (String × JSVal)) (k : String)
    (v : JSVal) (k' : String) :
    SecondMeMemory.jsGet (l.map (fun p => if p.1 = k then (k, v) else p)) k' =
      if k' = k ∧ (l.find? (fun p => p.1 = k)).isSome then v
      else SecondMeMemory.jsGet l k' := by
  induction l with
  | nil => simp [jsGet_nil]
  | cons hd tl ih =>
    obtain ⟨a, w⟩ := hd
    by_cases hhd : a = k
    · subst hhd
      by_cases hk : k' = a
      · subst hk
        simp [jsGet_cons, List.find?_cons]
      · simp only [List.map_cons]
        simp [jsGet_cons, List.find?_cons, hk, ih,
          show ¬ a = k' from fun h => hk h.symm]
    · by_cases ha : a = k'
      · have hkk : ¬ k' = k := fun h => hhd (ha.trans h)
        simp [jsGet_cons, List.find?_cons, hhd, ha, hkk]
      · have hfind : ((a, w) :: tl).find? (fun p => p.1 = k) =
            tl.find? (fun p => p.1 = k) := by
          rw [List.find?_cons]
          simp [hhd]
        simp only [List.map_cons, if_neg hhd, jsGet_cons, if_neg ha, ih]
        rw [hfind]

/-- One JS property assignment, seen through lookups: the assigned key now
maps to the assigned value and every other key is unaffected. -/
theorem jsGet_objSet (l : List (String × JSVal)) (k : String) (v : JSVal)
    (k' : String) :
    SecondMeMemory.jsGet (SecondMeMemory.objSet l k v) k' =
      if k' = k then v else SecondMeMemory.jsGet l k' := by
  unfold SecondMeMemory.objSet
  by_cases hp : (l.find? (fun p => p.1 = k)).isSome
  · rw [if_pos hp, jsGet_replaceValue]
    by_cases hk : k' = k
    · rw [if_pos ⟨hk, hp⟩, if_pos hk]
    · rw [if_neg (fun h => hk h.1), if_neg hk]
  · rw [if_neg hp, jsGet_append]
    by_cases hk : k' = k
    · subst hk
      rw [if_neg hp, if_pos rfl, jsGet_cons, if_pos rfl]
    · by_cases hfk : (l.find? (fun p => p.1 = k')).isSome
      · rw [if_pos hfk, if_neg hk]
      · rw [if_neg hfk, if_neg hk, jsGet_cons,
          if_neg (fun h => hk h.symm), jsGet_nil,
          jsGet_of_find?_none l k' (Option.not_isSome_iff_eq_none.mp hfk)]

/-- Spreading `extra` over `base`: a key carried by `extra` reads as in
`extra`, any other key reads as in `base` (keys of `extra` unique, as they
are for a spread of a real JS object). -/
theorem jsGet_objSpread (extra : List (String × JSVal)) :
    ∀ base k, (extra.map Prod.fst).Nodup →
      SecondMeMemory.jsGet (SecondMeMemory.objSpread base extra) k =
        if (extra.find? (fun p => p.1 = k)).isSome then
          SecondMeMemory.jsGet extra k
        else SecondMeMemory.jsGet base k := by
  induction extra with
  | nil =>
    intro base k _
    simp [SecondMeMemory.objSpread]
  | cons hd tl ih =>
    intro base k hnd
    rw [List.map_cons, List.nodup_cons] at hnd
    have hstep : SecondMeMemory.objSpread base (hd :: tl) =
        SecondMeMemory.objSpread (SecondMeMemory.objSet base hd.1 hd.2) tl := rfl
    rw [hstep, ih _ k hnd.2]
    obtain ⟨a, w⟩ := hd
    by_cases hk : a = k
    · subst hk
      have htl : tl.find? (fun p => p.1 = a) = none := by
        rw [List.find?_eq_none]
        intro x hx hpx
        have hx1 : x.1 = a := by simpa using hpx
        have hmem : a ∈ tl.map Prod.fst := by
          rw [← hx1]
          exact List.mem_map_of_mem Prod.fst hx
        exact hnd.1 hmem
      rw [htl]
      simp [jsGet_objSet, jsGet_cons, List.find?_cons]
    · by_cases htl : (tl.find? (fun p => p.1 = k)).isSome
      · simp [List.find?_cons, hk, htl, jsGet_cons]
      · simp [List.find?_cons, hk, htl, jsGet_objSet, jsGet_cons,
          show ¬ k = a from fun h => hk h.symm]

/-- Claim C9: the options sent by `retrieveMemories` are the defaults
`limit = 10, offset = 0, sortBy = "timestamp", sortDirection = "desc"`
merged under the caller's overrides: a key the caller supplies reads as the
caller's value, every other key reads as in the defaults; with empty
options all four defaults apply, and `options.limit = 5` changes only the
`limit` field. -/
theorem c9_retrieve_options_default_merge (options : List (String × JSVal))
    (hnd : (options.map Prod.fst).Nodup) :
    (∀ k, SecondMeMemory.jsGet (SecondMeMemory.retrievalOptions options) k =
      if (options.find? (fun p => p.1 = k)).isSome then
        SecondMeMemory.jsGet options k
      else SecondMeMemory.jsGet SecondMeMemory.defaultRetrievalOptions k) ∧
    SecondMeMemory.retrievalOptions [] =
      SecondMeMemory.defaultRetrievalOptions ∧
    SecondMeMemory.retrievalOptions [("limit", .vNum 5)] =
      [("limit", .vNum 5), ("offset", .vNum 0), ("sortBy", .vStr "timestamp"),
       ("sortDirection", .vStr "desc")] ∧
    getField (SecondMeMemory.retrieveMemories .vNull options) "options" =
      .vObj (SecondMeMemory.retrievalOptions options) := by
  refine ⟨?_, rfl, rfl, rfl⟩
  intro k
  unfold SecondMeMemory.retrievalOptions
  rw [jsGet_objSpread options _ k hnd]
  by_cases hopt : (options.find? (fun p => p.1 = k)).isSome
  · rw [if_pos hopt, if_pos hopt]
  · rw [if_neg hopt, if_neg hopt]
    have hundef : SecondMeMemory.jsGet options k = .vUndefined :=
      jsGet_of_find?_none options k (Option.not_isSome_iff_eq_none.mp hopt)
    by_cases h1 : k = "limit"
    · subst h1
      simp [jsGet_cons, hundef, jsOr, truthy,
        SecondMeMemory.defaultRetrievalOptions]
    · by_cases h2 : k = "offset"
      · subst h2
        simp [jsGet_cons, hundef, jsOr, truthy,
          SecondMeMemory.defaultRetrievalOptions,
          show ¬ "limit" = "offset" by decide]
      · by_cases h3 : k = "sortBy"
        · subst h3
          simp [jsGet_cons, hundef, jsOr, truthy,
            SecondMeMemory.defaultRetrievalOptions,
            show ¬ "limit" = "sortBy" by decide,
            show ¬ "offset" = "sortBy" by decide]
        · by_cases h4 : k = "sortDirection"
          · subst h4
            simp [jsGet_cons, hundef, jsOr, truthy,
              SecondMeMemory.defaultRetrievalOptions,
              show ¬ "limit" = "sortDirection" by decide,
              show ¬ "offset" = "sortDirection" by decide,
              show ¬ "sortBy" = "sortDirection" by decide]
          · simp [jsGet_cons, jsGet_nil,
              SecondMeMemory.defaultRetrievalOptions,
              show ¬ "limit" = k from fun h => h1 h.symm,
              show ¬ "offset" = k from fun h => h2 h.symm,
              show ¬ "sortBy" = k from fun h => h3 h.symm,
              show ¬ "sortDirection" = k from fun h => h4 h.symm]

theorem c9_retrieve_options_default_merge_witness :
    SecondMeMemory.jsGet
        (SecondMeMemory.retrievalOptions [("limit", JSVal.vNum 5)]) "limit" =
      .vNum 5 ∧
    SecondMeMemory.jsGet
        (SecondMeMemory.retrievalOptions [("limit", JSVal.vNum 5)])
        "sortDirection" = .vStr "desc" ∧
    SecondMeMemory.retrievalOptions [] =
      SecondMeMemory.defaultRetrievalOptions := by
  have h := c9_retrieve_options_default_merge [("limit", .vNum 5)] (by simp)
  have h0 := c9_retrieve_options_default_merge [] (by simp)
  exact ⟨(h.1 "limit").trans rfl, (h.1 "sortDirection").trans rfl, h0.2.1⟩
